import Mathlib

/-!
# Verification of the LibAFL cmplog-reduction and mutational-stage core

Shallow embedding of `src/libafl/src/observers/cmp.rs` and
`src/libafl/src/stages/mutational.rs`. Machine integers (`u8`, `u64`, …) are
modelled as `Nat` with explicit `% 2 ^ w` where the Rust code wraps; fallible
operations return `Option`/`Except`; Rust panics (out-of-bounds slicing) are
modelled as `none`.
-/

namespace LibAFL

/-! ## `CmplogBytes` (cmp.rs lines 34-65)

A bytes string for cmplog with up to 32 elements: an inline `[u8; 32]` buffer
(modelled as a `List Nat` of length 32 with entries `< 256`) plus a `u8`
length. -/

structure CmplogBytes where
  buf : List Nat
  len : Nat
  deriving DecidableEq, Repr

/-- Well-formedness of the Rust representation: the inline buffer has exactly
32 bytes and `len` fits in a `u8`. -/
def CmplogBytes.wf (b : CmplogBytes) : Prop :=
  b.buf.length = 32 ∧ b.len < 256 ∧ ∀ x ∈ b.buf, x < 256

/-- `CmplogBytes::from_buf_and_len` (release semantics): the `debug_assert!`
on `len <= 32` is compiled out, so the pair is stored unchanged. -/
def CmplogBytes.from_buf_and_len (buf : List Nat) (len : Nat) : CmplogBytes :=
  { buf := buf, len := len }

/-- `<CmplogBytes as AsSlice>::as_slice`, i.e. `&self.buf[0..(self.len as usize)]`.
Rust slicing panics when the range end exceeds the buffer length; the panic is
modelled as `none`. -/
def CmplogBytes.as_slice (b : CmplogBytes) : Option (List Nat) :=
  if b.len ≤ b.buf.length then some (b.buf.take b.len) else none

/-- `<CmplogBytes as HasLen>::len`, i.e. `self.len as usize`. -/
def CmplogBytes.length (b : CmplogBytes) : Nat :=
  b.len

/-! ## `CmpValues` (cmp.rs lines 67-103) -/

/-- Compare values collected during a run. Numeric operands are `Nat`s standing
for the corresponding fixed-width unsigned integers. -/
inductive CmpValues where
  | U8 : Nat × Nat → CmpValues
  | U16 : Nat × Nat → CmpValues
  | U32 : Nat × Nat → CmpValues
  | U64 : Nat × Nat → CmpValues
  | Bytes : CmplogBytes × CmplogBytes → CmpValues
  deriving DecidableEq, Repr

/-- Operand widths: both operands of a variant fit the variant's width. -/
def CmpValues.wf : CmpValues → Prop
  | .U8 t => t.1 < 2 ^ 8 ∧ t.2 < 2 ^ 8
  | .U16 t => t.1 < 2 ^ 16 ∧ t.2 < 2 ^ 16
  | .U32 t => t.1 < 2 ^ 32 ∧ t.2 < 2 ^ 32
  | .U64 t => t.1 < 2 ^ 64 ∧ t.2 < 2 ^ 64
  | .Bytes t => t.1.wf ∧ t.2.wf

/-- `CmpValues::is_numeric`: `matches!(self, U8(_) | U16(_) | U32(_) | U64(_))`. -/
def CmpValues.is_numeric : CmpValues → Bool
  | .U8 _ | .U16 _ | .U32 _ | .U64 _ => true
  | .Bytes _ => false

/-- `CmpValues::to_u64_tuple`: widen numeric variants with `u64::from`
(zero-extension, the identity on the underlying `Nat`); `Bytes` gives `None`. -/
def CmpValues.to_u64_tuple : CmpValues → Option (Nat × Nat)
  | .U8 t => some (t.1, t.2)
  | .U16 t => some (t.1, t.2)
  | .U32 t => some (t.1, t.2)
  | .U64 t => some t
  | .Bytes _ => none

/-! ## `AFLppCmpLogHeader` (cmp.rs lines 482-504)

`#[repr(C, packed)]` over `data: [u8; 2]` with c2rust-style little-endian
bitfields: bit `k` of the record is bit `k % 8` of byte `k / 8`.

  - `hits`      bits 0..=5   (byte 0, bits 0-5)
  - `shape`     bits 6..=10  (byte 0 bits 6-7, byte 1 bits 0-2)
  - `_type`     bits 11..=11 (byte 1, bit 3)
  - `attribute` bits 12..=15 (byte 1, bits 4-7; named `attrib` here because
    `attribute` is a Lean keyword)

The four fields cover all 16 bits of the 2-byte record. -/

structure AFLppCmpLogHeader where
  data0 : Nat
  data1 : Nat
  deriving DecidableEq, Repr

/-- The record really is two bytes. -/
def AFLppCmpLogHeader.wf (h : AFLppCmpLogHeader) : Prop :=
  h.data0 < 256 ∧ h.data1 < 256

instance (h : AFLppCmpLogHeader) : Decidable h.wf := by
  unfold AFLppCmpLogHeader.wf
  infer_instance

/-- Bitfield getter `hits` (bits 0-5 of byte 0). -/
def AFLppCmpLogHeader.hits (h : AFLppCmpLogHeader) : Nat :=
  h.data0 % 64

/-- Bitfield getter `shape` (bits 6-7 of byte 0, bits 0-2 of byte 1). -/
def AFLppCmpLogHeader.shape (h : AFLppCmpLogHeader) : Nat :=
  h.data0 / 64 % 4 + h.data1 % 8 * 4

/-- Bitfield getter `_type` (bit 3 of byte 1). -/
def AFLppCmpLogHeader._type (h : AFLppCmpLogHeader) : Nat :=
  h.data1 / 8 % 2

/-- Bitfield getter `attribute` (bits 4-7 of byte 1). -/
def AFLppCmpLogHeader.attrib (h : AFLppCmpLogHeader) : Nat :=
  h.data1 / 16 % 16

/-- Bitfield setter `set_hits`: writes the low 6 bits of `v` into bits 0-5 of
byte 0, leaving the other bits alone (the generated setter masks the value to
the field width — it truncates, it does not saturate). -/
def AFLppCmpLogHeader.set_hits (h : AFLppCmpLogHeader) (v : Nat) : AFLppCmpLogHeader :=
  { h with data0 := h.data0 / 64 * 64 + v % 64 }

/-- Assemble a header record from the four field values (the unique record
whose getters return the masked field values). -/
def AFLppCmpLogHeader.ofFields (hits shape ty attrib : Nat) : AFLppCmpLogHeader :=
  { data0 := hits % 64 + shape % 4 * 64
    data1 := shape / 4 % 8 + ty % 2 * 8 + attrib % 16 * 16 }

/-! ## `CmpMap` (cmp.rs lines 203-225) and `CmpValuesMetadata` (lines 105-135)

The `CmpMap` trait is modelled by the two operations `add_from` consumes: the
number of logged executions per site and the logged value of a site at a given
execution slot (`None` when unavailable). -/

structure CmpMapModel where
  usable_executions_for : Nat → Nat
  values_of : Nat → Nat → Option CmpValues

/-- A state metadata holding a list of values logged from comparisons. -/
structure CmpValuesMetadata where
  list : List CmpValues
  deriving DecidableEq, Repr

/-- `CmpValuesMetadata::new`. -/
def CmpValuesMetadata.new : CmpValuesMetadata :=
  { list := [] }

/-- 2^64, the modulus for `u64` wrapping arithmetic. -/
def u64Mod : Nat := 2 ^ 64

/-- Running state of the loop-detection pass of `add_from` (cmp.rs lines
156-182): the four transition counters and the `last` slot. -/
structure LoopScan where
  increasing_v0 : Nat
  increasing_v1 : Nat
  decreasing_v0 : Nat
  decreasing_v1 : Nat
  last : Option CmpValues
  deriving DecidableEq, Repr

/-- Initial loop-detection state: all four counters 0, `last = None`. -/
def LoopScan.init : LoopScan :=
  { increasing_v0 := 0, increasing_v1 := 0, decreasing_v0 := 0, decreasing_v1 := 0
    last := none }

/-- One iteration `j` of the loop-detection pass at site `i` (cmp.rs lines
162-182): when `values_of` yields a value, compare it against `last` (when both
convert to a `u64` tuple) with `u64` wrapping `+1`/`-1`, then store the value in
`last`; when `values_of` yields nothing the state is unchanged. -/
def LoopScan.step (m : CmpMapModel) (i : Nat) (s : LoopScan) (j : Nat) : LoopScan :=
  match m.values_of i j with
  | none => s
  | some val =>
    let s' :=
      match s.last.bind CmpValues.to_u64_tuple, val.to_u64_tuple with
      | some l, some v =>
        let s₀ := if (l.1 + 1) % u64Mod = v.1 then
            { s with increasing_v0 := s.increasing_v0 + 1 } else s
        let s₁ := if (l.2 + 1) % u64Mod = v.2 then
            { s₀ with increasing_v1 := s₀.increasing_v1 + 1 } else s₀
        let s₂ := if (l.1 + (u64Mod - 1)) % u64Mod = v.1 then
            { s₁ with decreasing_v0 := s₁.decreasing_v0 + 1 } else s₁
        if (l.2 + (u64Mod - 1)) % u64Mod = v.2 then
            { s₂ with decreasing_v1 := s₂.decreasing_v1 + 1 } else s₂
      | _, _ => s
    { s' with last := some val }

/-- `CmpValuesMetadata::add_from` (cmp.rs lines 148-200): clear the list, then
for every site `i < usable_count` with `execs > 0` run the loop-detection pass
when `execs > 4` and skip the site when some counter reaches `execs - 2`;
otherwise push every available logged value of the site in order. -/
def CmpValuesMetadata.add_from (self : CmpValuesMetadata) (usable_count : Nat)
    (m : CmpMapModel) : CmpValuesMetadata :=
  let _ := self
  let final := (List.range usable_count).foldl (fun list i =>
    let execs := m.usable_executions_for i
    let pushed := (List.range execs).foldl (fun l j =>
      match m.values_of i j with
      | some val => l ++ [val]
      | none => l) list
    if execs > 0 then
      if execs > 4 then
        let s := (List.range execs).foldl (LoopScan.step m i) LoopScan.init
        if s.increasing_v0 ≥ execs - 2 ∨ s.increasing_v1 ≥ execs - 2 ∨
            s.decreasing_v0 ≥ execs - 2 ∨ s.decreasing_v1 ≥ execs - 2 then
          list
        else
          pushed
      else
        pushed
    else
      list) []
  { list := final }

/-! Characterisation pieces used to state the reduction claims. -/

/-- The logged values of site `i`, in logged order (slots whose `values_of` is
`None` contribute nothing). -/
def siteLogged (m : CmpMapModel) (i : Nat) : List CmpValues :=
  (List.range (m.usable_executions_for i)).filterMap (m.values_of i)

/-- The loop-detection counters of site `i` after scanning all its slots. -/
def siteScan (m : CmpMapModel) (i : Nat) : LoopScan :=
  (List.range (m.usable_executions_for i)).foldl (LoopScan.step m i) LoopScan.init

/-- Site `i` is discarded as a monotonic loop counter: more than 4 logged
executions and one of the four wrapping-monotonic transition counters reaches
`execs - 2`. -/
def siteDiscarded (m : CmpMapModel) (i : Nat) : Prop :=
  4 < m.usable_executions_for i ∧
    ((siteScan m i).increasing_v0 ≥ m.usable_executions_for i - 2 ∨
     (siteScan m i).increasing_v1 ≥ m.usable_executions_for i - 2 ∨
     (siteScan m i).decreasing_v0 ≥ m.usable_executions_for i - 2 ∨
     (siteScan m i).decreasing_v1 ≥ m.usable_executions_for i - 2)

instance (m : CmpMapModel) (i : Nat) : Decidable (siteDiscarded m i) := by
  unfold siteDiscarded
  infer_instance

/-! ## Mutational stage (mutational.rs)

The stage's collaborators (transform, mutator, evaluator, post-hooks) are
external trait objects; they are modelled as oracles supplied in an
environment record, indexed by iteration so that evolving fuzzer state can be
expressed. The interpreter returns the stage's `Result` together with the
ordered list of collaborator invocations, so that "X is never called" claims
are statements about the event trace. Errors are opaque (`Nat`). -/

/-- `MutationResult` (mutators): `Mutated` or `Skipped`. -/
inductive MutationResult where
  | Mutated
  | Skipped
  deriving DecidableEq, Repr

/-- One collaborator invocation, tagged with the loop iteration (or batch
position) it happened in. -/
inductive StageEvent where
  | mutateCall (iter : Nat)
  | multiMutateCall
  | transformIntoCall (iter : Nat)
  | evaluateCall (iter : Nat)
  | mutatorPostCall (iter : Nat)
  | postHookCall (iter : Nat)
  deriving DecidableEq, Repr

/-- Collaborators of `perform_mutational` (mutational.rs lines 76-121).
`R` is the mutation representation, `I` the stored input type, `P` the
post-transform hook object. -/
structure MutStageEnv (R I P : Type) where
  transform_from : Except Nat R
  mutate : Nat → R → Except Nat (MutationResult × R)
  transform_into : Nat → R → Except Nat (I × P)
  evaluate_input : Nat → I → Except Nat (Option Nat)
  mutator_post : Nat → Option Nat → Except Nat Unit
  post_hook : Nat → P → Option Nat → Except Nat Unit

/-- One iteration of the `for _ in 0..num` loop of `perform_mutational`
(mutational.rs lines 104-119): mutate a clone of the transformed input; on
`Skipped`, `continue`; otherwise transform back, evaluate, and run the two
post-execution hooks, propagating any error. -/
def mutationalIter {R I P : Type} (env : MutStageEnv R I P) (input : R)
    (j : Nat) : Except Nat Unit × List StageEvent :=
  match env.mutate j input with
  | .error e => (.error e, [.mutateCall j])
  | .ok (mutated, input') =>
    if mutated = MutationResult.Skipped then
      (.ok (), [.mutateCall j])
    else
      match env.transform_into j input' with
      | .error e => (.error e, [.mutateCall j, .transformIntoCall j])
      | .ok (untransformed, post) =>
        match env.evaluate_input j untransformed with
        | .error e =>
          (.error e, [.mutateCall j, .transformIntoCall j, .evaluateCall j])
        | .ok corpus_id =>
          match env.mutator_post j corpus_id with
          | .error e =>
            (.error e, [.mutateCall j, .transformIntoCall j, .evaluateCall j,
              .mutatorPostCall j])
          | .ok _ =>
            match env.post_hook j post corpus_id with
            | .error e =>
              (.error e, [.mutateCall j, .transformIntoCall j, .evaluateCall j,
                .mutatorPostCall j, .postHookCall j])
            | .ok _ =>
              (.ok (), [.mutateCall j, .transformIntoCall j, .evaluateCall j,
                .mutatorPostCall j, .postHookCall j])

/-- The iteration loop of `perform_mutational`, starting at iteration `j` with
`n` iterations remaining; an `Err` from an iteration aborts the remaining
iterations (the `?` operator). -/
def mutationalLoop {R I P : Type} (env : MutStageEnv R I P) (input : R) :
    Nat → Nat → Except Nat Unit × List StageEvent
  | _, 0 => (.ok (), [])
  | j, n + 1 =>
    match mutationalIter env input j with
    | (.error e, ev) => (.error e, ev)
    | (.ok _, ev) =>
      let rest := mutationalLoop env input (j + 1) n
      (rest.1, ev ++ rest.2)

/-- `perform_mutational` (mutational.rs lines 76-121): transform the current
testcase once — `let Ok(input) = try_transform_from(..) else { return Ok(()) }`
— then run `num` iterations. -/
def perform_mutational {R I P : Type} (env : MutStageEnv R I P) (num : Nat) :
    Except Nat Unit × List StageEvent :=
  match env.transform_from with
  | .error _ => (.ok (), [])
  | .ok input => mutationalLoop env input 0 num

/-- Collaborators of `MultiMutationalStage::perform` (mutational.rs lines
296-322). -/
structure MultiStageEnv (R I P : Type) where
  transform_from : Except Nat R
  multi_mutate : R → Except Nat (List R)
  transform_into : Nat → R → Except Nat (I × P)
  evaluate_input : Nat → I → Except Nat (Option Nat)
  multi_post : Nat → Option Nat → Except Nat Unit
  post_hook : Nat → P → Option Nat → Except Nat Unit

/-- The `for new_input in generated` loop of `MultiMutationalStage::perform`
(mutational.rs lines 312-318), with `k` the position in the batch. -/
def multiLoop {R I P : Type} (env : MultiStageEnv R I P) :
    Nat → List R → Except Nat Unit × List StageEvent
  | _, [] => (.ok (), [])
  | k, new_input :: rest =>
    match env.transform_into k new_input with
    | .error e => (.error e, [.transformIntoCall k])
    | .ok (untransformed, post) =>
      match env.evaluate_input k untransformed with
      | .error e => (.error e, [.transformIntoCall k, .evaluateCall k])
      | .ok corpus_id =>
        match env.multi_post k corpus_id with
        | .error e =>
          (.error e, [.transformIntoCall k, .evaluateCall k, .mutatorPostCall k])
        | .ok _ =>
          match env.post_hook k post corpus_id with
          | .error e =>
            (.error e, [.transformIntoCall k, .evaluateCall k,
              .mutatorPostCall k, .postHookCall k])
          | .ok _ =>
            let r := multiLoop env (k + 1) rest
            (r.1, [StageEvent.transformIntoCall k, .evaluateCall k,
              .mutatorPostCall k, .postHookCall k] ++ r.2)

/-- `MultiMutationalStage::perform` (mutational.rs lines 296-322): transform
the current testcase once — failure returns `Ok(())` — then ask the mutator for
a whole batch and evaluate each member. -/
def MultiMutationalStage.perform {R I P : Type} (env : MultiStageEnv R I P) :
    Except Nat Unit × List StageEvent :=
  match env.transform_from with
  | .error _ => (.ok (), [])
  | .ok input =>
    match env.multi_mutate input with
    | .error e => (.error e, [.multiMutateCall])
    | .ok generated =>
      let r := multiLoop env 0 generated
      (r.1, StageEvent.multiMutateCall :: r.2)

/-! ## `StdMutationalStage` (mutational.rs lines 136-255) -/

/-- Default value, how many iterations each stage gets, as an upper bound. -/
def DEFAULT_MUTATIONAL_MAX_ITERATIONS : Nat := 128

/-- Modelled from the spec: the random source (`libafl_bolts::rands`, not under
`src/`). `below(n)` draws the next raw output and maps it uniformly below the
exclusive bound `n` ("draw `1 + uniform_random(0, max_iterations)`"); the state
advance is a concrete 64-bit LCG standing in for the real generator. -/
structure StdRand where
  seed : Nat

/-- Modelled from the spec: advance the generator and return its raw output. -/
def StdRand.next (r : StdRand) : Nat × StdRand :=
  (r.seed, { seed := (r.seed * 6364136223846793005 + 1442695040888963407) % u64Mod })

/-- Modelled from the spec: a draw below the exclusive upper bound `n`. -/
def StdRand.below (r : StdRand) (n : Nat) : Nat × StdRand :=
  let (v, r') := r.next
  (v % n, r')

/-- The `StdMutationalStage` record: its name and `max_iterations` bound (the
mutator itself lives in the interpreter environment). -/
structure StdMutationalStage where
  name : String
  max_iterations : Nat
  deriving DecidableEq, Repr

/-- The name for mutational stage. -/
def MUTATIONAL_STAGE_NAME : String := "mutational"

/-- `StdMutationalStage::transforming_with_max_iterations` (mutational.rs lines
240-254): the process-wide `MUTATIONAL_STAGE_ID` counter value observed at
construction is passed explicitly as `stage_id`; the name is
`"mutational:" + stage_id`. -/
def StdMutationalStage.transforming_with_max_iterations (stage_id max_iterations : Nat) :
    StdMutationalStage :=
  { name := MUTATIONAL_STAGE_NAME ++ ":" ++ toString stage_id
    max_iterations := max_iterations }

/-- `StdMutationalStage::new`: default `max_iterations`. -/
def StdMutationalStage.new (stage_id : Nat) : StdMutationalStage :=
  StdMutationalStage.transforming_with_max_iterations stage_id
    DEFAULT_MUTATIONAL_MAX_ITERATIONS

/-- `StdMutationalStage::iterations` (mutational.rs lines 225-230):
`1 + state.rand_mut().below(self.max_iterations)`, threading the advanced
random state. -/
def StdMutationalStage.iterations (stage : StdMutationalStage) (r : StdRand) :
    Nat × StdRand :=
  let (v, r') := r.below stage.max_iterations
  (1 + v, r')

/-- `StdMutationalStage::perform` (mutational.rs lines 187-202): draw a fresh
iteration count from the random state, then run `perform_mutational` with it. -/
def StdMutationalStage.perform {R I P : Type} (stage : StdMutationalStage)
    (r : StdRand) (env : MutStageEnv R I P) :
    (Except Nat Unit × List StageEvent) × StdRand :=
  let (iter, r') := stage.iterations r
  (perform_mutational env iter, r')

/-- The `MultiMutationalStage` record (name only; the mutator lives in the
interpreter environment). -/
structure MultiMutationalStage where
  name : String
  deriving DecidableEq, Repr

/-- The name for multi mutational stage. -/
def MULTI_MUTATIONAL_STAGE_NAME : String := "multimutational"

/-- `MultiMutationalStage::transforming` (mutational.rs lines 334-347), with
the process-wide counter value passed explicitly. -/
def MultiMutationalStage.transforming (stage_id : Nat) : MultiMutationalStage :=
  { name := MULTI_MUTATIONAL_STAGE_NAME ++ ":" ++ toString stage_id }

/-! ## Restart bookkeeping

`RetryCountRestartHelper` lives in `stages/mod.rs`, which is not under `src/`;
only its call sites are. It is therefore modelled from the spec. -/

/-- Modelled from the spec: the persisted per-stage-name retry bookkeeping
(`RetryCountRestartHelper`, not under `src/`): a counter of recorded abnormal
exits for each stage name. -/
structure RetryState where
  counters : String → Nat

/-- Modelled from the spec: `RetryCountRestartHelper::should_restart(state,
name, max_retries)` records one more (possibly abnormal) entry into the stage
for `name` and allows the restart while the recorded count has not passed
`max_retries` ("allow up to 3 resumption attempts ... before giving up"). -/
def RetryState.should_restart (st : RetryState) (name : String) (max_retries : Nat) :
    RetryState × Bool :=
  let tries := st.counters name + 1
  ({ counters := fun n => if n = name then tries else st.counters n },
    tries ≤ max_retries)

/-- Modelled from the spec: `RetryCountRestartHelper::clear_progress(state,
name)` resets the persisted counter for `name`. -/
def RetryState.clear_progress (st : RetryState) (name : String) : RetryState :=
  { counters := fun n => if n = name then 0 else st.counters n }

/-- `StdMutationalStage::should_restart` (mutational.rs lines 204-206):
delegates to the helper with the stage's own name and limit 3. -/
def StdMutationalStage.should_restart (stage : StdMutationalStage)
    (st : RetryState) : RetryState × Bool :=
  RetryState.should_restart st stage.name 3

/-- `StdMutationalStage::clear_progress` (mutational.rs lines 208-210). -/
def StdMutationalStage.clear_progress (stage : StdMutationalStage)
    (st : RetryState) : RetryState :=
  RetryState.clear_progress st stage.name

/-- `MultiMutationalStage::should_restart` (mutational.rs lines 283-286):
delegates to the helper with the stage's own name and limit 3. -/
def MultiMutationalStage.should_restart (stage : MultiMutationalStage)
    (st : RetryState) : RetryState × Bool :=
  RetryState.should_restart st stage.name 3

/-- `MultiMutationalStage::clear_progress` (mutational.rs lines 289-291). -/
def MultiMutationalStage.clear_progress (stage : MultiMutationalStage)
    (st : RetryState) : RetryState :=
  RetryState.clear_progress st stage.name

/-- `n` successive `should_restart` calls (limit 3) for one stage name,
returning the final state and the list of returned Booleans in call order. -/
def callShouldRestartN (st : RetryState) (name : String) : Nat → RetryState × List Bool
  | 0 => (st, [])
  | n + 1 =>
    let (st', bs) := callShouldRestartN st name n
    let (st'', b) := RetryState.should_restart st' name 3
    (st'', bs ++ [b])

/-! ## Theorems -/

/-- C9: `to_u64_tuple` returns `Some` of the operand pair zero-extended to a
64-bit pair with no bit loss (in the `Nat` model, the pair itself) for the
`U8`, `U16`, `U32` and `U64` variants, and `None` exactly for `Bytes`;
`is_numeric` is true exactly on the non-`Bytes` variants. -/
theorem to_u64_tuple_widens_exactly_on_numeric :
    (∀ a b : Nat, (CmpValues.U8 (a, b)).to_u64_tuple = some (a, b)) ∧
    (∀ a b : Nat, (CmpValues.U16 (a, b)).to_u64_tuple = some (a, b)) ∧
    (∀ a b : Nat, (CmpValues.U32 (a, b)).to_u64_tuple = some (a, b)) ∧
    (∀ a b : Nat, (CmpValues.U64 (a, b)).to_u64_tuple = some (a, b)) ∧
    (∀ p : CmplogBytes × CmplogBytes, (CmpValues.Bytes p).to_u64_tuple = none) ∧
    (∀ v : CmpValues, v.is_numeric = true ↔ v.to_u64_tuple ≠ none) ∧
    (∀ v : CmpValues, v.is_numeric = false ↔ ∃ p, v = CmpValues.Bytes p) := by
  refine ⟨fun a b => rfl, fun a b => rfl, fun a b => rfl, fun a b => rfl,
    fun p => rfl, fun v => ?_, fun v => ?_⟩ <;>
    cases v <;> simp [CmpValues.is_numeric, CmpValues.to_u64_tuple]

/-- C8: for a 32-byte buffer and `len ≤ 32`, `from_buf_and_len` followed by
`as_slice` yields a view of exactly `len` bytes equal to the first `len` bytes
of the input buffer, and `len()` returns `len`. -/
theorem from_buf_and_len_view (buf : List Nat) (len : Nat)
    (hbuf : buf.length = 32) (hlen : len ≤ 32) :
    (CmplogBytes.from_buf_and_len buf len).as_slice = some (buf.take len) ∧
    (buf.take len).length = len ∧
    (CmplogBytes.from_buf_and_len buf len).length = len := by
  refine ⟨?_, ?_, rfl⟩
  · unfold CmplogBytes.as_slice CmplogBytes.from_buf_and_len
    simp only [hbuf]
    rw [if_pos hlen]
  · rw [List.length_take, hbuf]
    exact Nat.min_eq_left hlen

/-- Closed witness for `from_buf_and_len_view` at a concrete 32-byte buffer and
`len = 5`. -/
theorem from_buf_and_len_view_witness :
    ((List.replicate 32 7).length = 32 ∧ (5 : Nat) ≤ 32) ∧
    (CmplogBytes.from_buf_and_len (List.replicate 32 7) 5).as_slice
      = some ((List.replicate 32 7).take 5) ∧
    (CmplogBytes.from_buf_and_len (List.replicate 32 7) 5).length = 5 :=
  have h := from_buf_and_len_view (List.replicate 32 7) 5 (by decide) (by decide)
  ⟨⟨by decide, by decide⟩, h.1, h.2.2⟩

/-- C10: with debug assertions disabled, `from_buf_and_len` accepts any
`u8` length above 32 and stores it unchanged; `as_slice` on such a value is an
out-of-bounds slice of the 32-byte inline buffer (a panic, modelled `none`),
and `as_slice` is in bounds exactly under the precondition `len ≤ 32`. -/
theorem from_buf_and_len_oob (buf : List Nat) (len : Nat)
    (hbuf : buf.length = 32) (hbig : 32 < len) (hu8 : len < 256) :
    (CmplogBytes.from_buf_and_len buf len).len = len ∧
    (CmplogBytes.from_buf_and_len buf len).as_slice = none ∧
    (∀ len', len' ≤ 32 →
      (CmplogBytes.from_buf_and_len buf len').as_slice
        = some (buf.take len')) := by
  refine ⟨rfl, ?_, ?_⟩
  · unfold CmplogBytes.as_slice CmplogBytes.from_buf_and_len
    simp only [hbuf]
    rw [if_neg (by omega)]
  · intro len' hlen'
    unfold CmplogBytes.as_slice CmplogBytes.from_buf_and_len
    simp only [hbuf]
    rw [if_pos hlen']

/-- Closed witness for `from_buf_and_len_oob` at a concrete buffer and
`len = 40`. -/
theorem from_buf_and_len_oob_witness :
    ((List.replicate 32 0).length = 32 ∧ (32 : Nat) < 40 ∧ (40 : Nat) < 256) ∧
    (CmplogBytes.from_buf_and_len (List.replicate 32 0) 40).len = 40 ∧
    (CmplogBytes.from_buf_and_len (List.replicate 32 0) 40).as_slice = none :=
  have h := from_buf_and_len_oob (List.replicate 32 0) 40 (by decide) (by decide)
    (by decide)
  ⟨⟨by decide, by decide, by decide⟩, h.1, h.2.1⟩

/-- C3: running `add_from` twice in succession with the same snapshot and
count leaves the metadata equal to running it once — the list is rebuilt from
scratch on each call, never accumulated. -/
theorem add_from_idempotent (md : CmpValuesMetadata) (usable_count : Nat)
    (m : CmpMapModel) :
    (md.add_from usable_count m).add_from usable_count m
      = md.add_from usable_count m := rfl

/-- C2 counterexample: the `hits` bitfield setter masks its argument to the
low 6 bits — setting a value past 63 wraps (here `64 ↦ 0`) instead of
saturating at 63, contradicting the claim's "saturating rather than wrapping
when set past 63". -/
theorem set_hits_wraps_not_saturates :
    (AFLppCmpLogHeader.set_hits ⟨0, 0⟩ 64).hits = 0 ∧
    (AFLppCmpLogHeader.set_hits ⟨0, 0⟩ 64).hits ≠ 63 := by
  decide

/-- C2 (amended): the record is exactly 2 bytes with no padding, packing,
little-endian within the record, `hits` in bits 0-5 (the setter truncates to
6 bits, wrapping modulo 64 rather than saturating), `shape` in bits 6-10,
the instruction-vs-call kind in bit 11 and `attribute` in bits 12-15; those
four fields exhaust all 16 bits, so the record carries no overflow flag. -/
theorem header_layout (hits shape ty attrib v : Nat) (h : AFLppCmpLogHeader)
    (hh : hits < 64) (hs : shape < 32) (ht : ty < 2) (ha : attrib < 16)
    (hwf : h.wf) :
    (AFLppCmpLogHeader.ofFields hits shape ty attrib).hits = hits ∧
    (AFLppCmpLogHeader.ofFields hits shape ty attrib).shape = shape ∧
    (AFLppCmpLogHeader.ofFields hits shape ty attrib)._type = ty ∧
    (AFLppCmpLogHeader.ofFields hits shape ty attrib).attrib = attrib ∧
    (AFLppCmpLogHeader.ofFields hits shape ty attrib).wf ∧
    AFLppCmpLogHeader.ofFields h.hits h.shape h._type h.attrib = h ∧
    (h.set_hits v).hits = v % 64 := by
  obtain ⟨d0, d1⟩ := h
  have h0 : d0 < 256 := hwf.1
  have h1 : d1 < 256 := hwf.2
  simp only [AFLppCmpLogHeader.ofFields, AFLppCmpLogHeader.hits,
    AFLppCmpLogHeader.shape, AFLppCmpLogHeader._type, AFLppCmpLogHeader.attrib,
    AFLppCmpLogHeader.set_hits, AFLppCmpLogHeader.wf, AFLppCmpLogHeader.mk.injEq]
  refine ⟨by omega, by omega, by omega, by omega, ⟨by omega, by omega⟩, ?_, by omega⟩
  have e1 : (d0 / 64 % 4 + d1 % 8 * 4) % 4 = d0 / 64 % 4 := by omega
  have e2 : (d0 / 64 % 4 + d1 % 8 * 4) / 4 = d1 % 8 := by omega
  rw [e1, e2]
  constructor <;> omega

/-- Closed witness for `header_layout` at the all-ones field values and the
all-ones record. -/
theorem header_layout_witness :
    ((63 : Nat) < 64 ∧ (31 : Nat) < 32 ∧ (1 : Nat) < 2 ∧ (15 : Nat) < 16 ∧
      (AFLppCmpLogHeader.mk 255 255).wf) ∧
    (AFLppCmpLogHeader.ofFields 63 31 1 15).hits = 63 ∧
    (AFLppCmpLogHeader.ofFields 63 31 1 15).shape = 31 ∧
    AFLppCmpLogHeader.ofFields (AFLppCmpLogHeader.mk 255 255).hits
      (AFLppCmpLogHeader.mk 255 255).shape (AFLppCmpLogHeader.mk 255 255)._type
      (AFLppCmpLogHeader.mk 255 255).attrib = AFLppCmpLogHeader.mk 255 255 ∧
    ((AFLppCmpLogHeader.mk 255 255).set_hits 64).hits = 64 % 64 :=
  have h := header_layout 63 31 1 15 64 (AFLppCmpLogHeader.mk 255 255)
    (by decide) (by decide) (by decide) (by decide) (by decide)
  ⟨⟨by decide, by decide, by decide, by decide, by decide⟩,
    h.1, h.2.1, h.2.2.2.2.2.1, h.2.2.2.2.2.2⟩

/-- Pushing each available value onto an accumulator (the inner loop of
`add_from`) appends the site's logged values to it. -/
theorem foldl_push_eq_filterMap (f : Nat → Option CmpValues) (xs : List Nat)
    (init : List CmpValues) :
    xs.foldl (fun l j =>
        match f j with
        | some val => l ++ [val]
        | none => l) init
      = init ++ xs.filterMap f := by
  induction xs generalizing init with
  | nil => simp
  | cons x xs ih =>
    simp only [List.foldl_cons, List.filterMap_cons]
    cases hf : f x with
    | none => simp only [hf, ih]
    | some v => simp only [hf, ih, List.append_assoc, List.singleton_append]

/-- A fold that appends a per-element block to its accumulator concatenates
the blocks. -/
theorem foldl_append_eq_flatMap {α : Type} (g : α → List CmpValues) (xs : List α)
    (init : List CmpValues) :
    xs.foldl (fun acc i => acc ++ g i) init = init ++ xs.flatMap g := by
  induction xs generalizing init with
  | nil => simp
  | cons x xs ih => simp [ih]

/-- C1: the single-run reduction keeps, per site in traversal order, either
nothing — exactly when the site has more than 4 logged executions and one of
the four wrapping-monotonic transition counters reaches `execs - 2` — or every
logged value of the site in logged order (in particular every site with
`0 < execs ≤ 4` is kept in full). -/
theorem add_from_characterisation (md : CmpValuesMetadata) (usable_count : Nat)
    (m : CmpMapModel) :
    (md.add_from usable_count m).list
      = (List.range usable_count).flatMap
          (fun i => if siteDiscarded m i then [] else siteLogged m i) := by
  show (List.range usable_count).foldl _ [] = _
  rw [List.foldl_ext _
    (fun acc i => acc ++ if siteDiscarded m i then [] else siteLogged m i)]
  · exact foldl_append_eq_flatMap _ _ []
  · intro acc i _
    simp only
    rw [foldl_push_eq_filterMap]
    have hscan : List.foldl (LoopScan.step m i) LoopScan.init
        (List.range (m.usable_executions_for i)) = siteScan m i := rfl
    have hlog : List.filterMap (m.values_of i) (List.range (m.usable_executions_for i))
        = siteLogged m i := rfl
    rw [hscan, hlog]
    by_cases h0 : m.usable_executions_for i > 0
    · rw [if_pos h0]
      by_cases h4 : m.usable_executions_for i > 4
      · rw [if_pos h4]
        by_cases hd : (siteScan m i).increasing_v0 ≥ m.usable_executions_for i - 2 ∨
            (siteScan m i).increasing_v1 ≥ m.usable_executions_for i - 2 ∨
            (siteScan m i).decreasing_v0 ≥ m.usable_executions_for i - 2 ∨
            (siteScan m i).decreasing_v1 ≥ m.usable_executions_for i - 2
        · rw [if_pos hd, if_pos (show siteDiscarded m i from ⟨h4, hd⟩)]
          simp
        · rw [if_neg hd, if_neg (fun hc : siteDiscarded m i => hd hc.2)]
      · rw [if_neg h4, if_neg (fun hc : siteDiscarded m i => h4 hc.1)]
    · rw [if_neg h0, if_neg (fun hc : siteDiscarded m i => h0 (Nat.lt_trans (by omega) hc.1))]
      have hz : m.usable_executions_for i = 0 := by omega
      simp [siteLogged, hz]

/-- C4: on a transform failure both `perform_mutational` and
`MultiMutationalStage::perform` return `Ok(())` immediately with an empty
invocation trace — the mutator and the evaluator are never called and no error
is propagated. -/
theorem transform_failure_is_silent_skip {R I P R' I' P' : Type}
    (envS : MutStageEnv R I P) (envM : MultiStageEnv R' I' P') (num e e' : Nat)
    (hS : envS.transform_from = .error e) (hM : envM.transform_from = .error e') :
    perform_mutational envS num = (.ok (), []) ∧
    MultiMutationalStage.perform envM = (.ok (), []) := by
  unfold perform_mutational MultiMutationalStage.perform
  rw [hS, hM]
  exact ⟨rfl, rfl⟩

/-- A concrete environment whose transform fails, with a mutator and evaluator
that would succeed if they were reached. -/
def failingTransformEnv : MutStageEnv Nat Nat Nat :=
  { transform_from := .error 0
    mutate := fun _ r => .ok (.Mutated, r + 1)
    transform_into := fun _ r => .ok (r, 0)
    evaluate_input := fun _ _ => .ok (some 1)
    mutator_post := fun _ _ => .ok ()
    post_hook := fun _ _ _ => .ok () }

/-- A concrete batch environment whose transform fails. -/
def failingTransformMultiEnv : MultiStageEnv Nat Nat Nat :=
  { transform_from := .error 0
    multi_mutate := fun r => .ok [r, r + 1]
    transform_into := fun _ r => .ok (r, 0)
    evaluate_input := fun _ _ => .ok (some 1)
    multi_post := fun _ _ => .ok ()
    post_hook := fun _ _ _ => .ok () }

/-- Closed witness for `transform_failure_is_silent_skip` on the concrete
failing environments. -/
theorem transform_failure_is_silent_skip_witness :
    (failingTransformEnv.transform_from = .error 0 ∧
      failingTransformMultiEnv.transform_from = .error 0) ∧
    perform_mutational failingTransformEnv 5 = (.ok (), []) ∧
    MultiMutationalStage.perform failingTransformMultiEnv = (.ok (), []) :=
  ⟨⟨rfl, rfl⟩,
    transform_failure_is_silent_skip failingTransformEnv failingTransformMultiEnv
      5 0 0 rfl rfl⟩

/-- When every mutation is reported `Skipped` the loop emits exactly one
`mutateCall` per iteration and succeeds. -/
theorem mutationalLoop_all_skipped {R I P : Type} (env : MutStageEnv R I P)
    (input : R)
    (hsk : ∀ j, ∃ r, env.mutate j input = .ok (.Skipped, r)) :
    ∀ n s, mutationalLoop env input s n
      = (.ok (), (List.range' s n).map StageEvent.mutateCall) := by
  intro n
  induction n with
  | zero => intro s; rfl
  | succ n ih =>
    intro s
    obtain ⟨r, hr⟩ := hsk s
    have hiter : mutationalIter env input s = (.ok (), [.mutateCall s]) := by
      unfold mutationalIter
      rw [hr]
      rfl
    simp only [mutationalLoop, hiter, ih (s + 1), List.range'_succ, List.map_cons]
    rfl

/-- C5: in `perform_mutational`, an iteration whose mutation is `Skipped`
invokes nothing after the mutator (no transform-back, no evaluation, no
post-execution hooks); and when the mutator reports `Skipped` on every
iteration, the whole pass succeeds with a trace of bare `mutateCall`s —
in particular the evaluator is never invoked. -/
theorem skipped_mutations_skip_evaluation {R I P : Type} (env : MutStageEnv R I P)
    (num : Nat) (input : R) (h : env.transform_from = .ok input) :
    (∀ j r, env.mutate j input = .ok (.Skipped, r) →
      mutationalIter env input j = (.ok (), [.mutateCall j])) ∧
    ((∀ j, ∃ r, env.mutate j input = .ok (.Skipped, r)) →
      perform_mutational env num
          = (.ok (), (List.range num).map StageEvent.mutateCall) ∧
      ∀ j, StageEvent.evaluateCall j ∉ (perform_mutational env num).2) := by
  constructor
  · intro j r hr
    unfold mutationalIter
    rw [hr]
    rfl
  · intro hsk
    have hloop := mutationalLoop_all_skipped env input hsk num 0
    have hperf : perform_mutational env num
        = (.ok (), (List.range num).map StageEvent.mutateCall) := by
      unfold perform_mutational
      rw [h]
      show mutationalLoop env input 0 num
        = (.ok (), (List.range num).map StageEvent.mutateCall)
      rw [hloop, ← List.range_eq_range']
    refine ⟨hperf, ?_⟩
    intro j
    rw [hperf]
    simp

/-- A concrete environment whose mutator always reports `Skipped`. -/
def alwaysSkipEnv : MutStageEnv Nat Nat Nat :=
  { transform_from := .ok 0
    mutate := fun _ r => .ok (.Skipped, r)
    transform_into := fun _ r => .ok (r, 0)
    evaluate_input := fun _ _ => .ok (some 1)
    mutator_post := fun _ _ => .ok ()
    post_hook := fun _ _ _ => .ok () }

/-- Closed witness for `skipped_mutations_skip_evaluation` on the concrete
always-skipping environment with 3 iterations. -/
theorem skipped_mutations_skip_evaluation_witness :
    alwaysSkipEnv.transform_from = .ok 0 ∧
    mutationalIter alwaysSkipEnv 0 0 = (.ok (), [.mutateCall 0]) ∧
    perform_mutational alwaysSkipEnv 3
      = (.ok (), [.mutateCall 0, .mutateCall 1, .mutateCall 2]) := by
  have h := skipped_mutations_skip_evaluation alwaysSkipEnv 3 0 rfl
  have h2 := h.2 (fun j => ⟨0, rfl⟩)
  refine ⟨rfl, h.1 0 0 rfl, ?_⟩
  rw [h2.1]
  rfl

/-- C6: for every random state, `StdMutationalStage::iterations` draws a count
in `[1, max_iterations]` (default `max_iterations = 128`), and `perform` takes
a fresh draw from the current random state on every invocation, returning the
advanced state. -/
theorem iterations_in_range {R I P : Type} (stage : StdMutationalStage)
    (r : StdRand) (stage_id : Nat) (env : MutStageEnv R I P)
    (hpos : 0 < stage.max_iterations) :
    (1 ≤ (stage.iterations r).1 ∧ (stage.iterations r).1 ≤ stage.max_iterations) ∧
    DEFAULT_MUTATIONAL_MAX_ITERATIONS = 128 ∧
    (StdMutationalStage.new stage_id).max_iterations = 128 ∧
    stage.perform r env
      = (perform_mutational env (stage.iterations r).1, (stage.iterations r).2) := by
  refine ⟨⟨?_, ?_⟩, rfl, rfl, rfl⟩
  · exact Nat.le_add_right 1 _
  · show 1 + r.seed % stage.max_iterations ≤ stage.max_iterations
    exact Nat.one_add_le_iff.mpr (Nat.mod_lt _ hpos)

/-- Closed witness for `iterations_in_range` at a concrete stage and seed. -/
theorem iterations_in_range_witness :
    (0 : Nat) < (StdMutationalStage.new 0).max_iterations ∧
    1 ≤ ((StdMutationalStage.new 0).iterations ⟨300⟩).1 ∧
    ((StdMutationalStage.new 0).iterations ⟨300⟩).1
      ≤ (StdMutationalStage.new 0).max_iterations ∧
    DEFAULT_MUTATIONAL_MAX_ITERATIONS = 128 :=
  have h := iterations_in_range (StdMutationalStage.new 0) ⟨300⟩ 0
    failingTransformEnv (by decide)
  ⟨by decide, h.1.1, h.1.2, h.2.1⟩

/-- C7: consulting `should_restart` records an abnormal exit under the stage's
own name; after 3 recorded abnormal exits for a name the next consult returns
false, `clear_progress` resets the persisted counter so 3 further resumption
attempts are allowed, counters of other names are untouched, and both
`StdMutationalStage` and `MultiMutationalStage` delegate with limit 3 keyed by
their own (distinctly named) stage name. -/
theorem retry_counter_three_strikes (st : RetryState) (s : StdMutationalStage)
    (mm : MultiMutationalStage) (i j : Nat)
    (h0 : st.counters s.name = 0) (h1 : st.counters mm.name = 0)
    (hne : s.name ≠ mm.name) :
    (callShouldRestartN st s.name 4).2 = [true, true, true, false] ∧
    (callShouldRestartN
        (StdMutationalStage.clear_progress s (callShouldRestartN st s.name 4).1)
        s.name 4).2 = [true, true, true, false] ∧
    (callShouldRestartN st mm.name 4).2 = [true, true, true, false] ∧
    (callShouldRestartN
        (MultiMutationalStage.clear_progress mm (callShouldRestartN st mm.name 4).1)
        mm.name 4).2 = [true, true, true, false] ∧
    (callShouldRestartN st s.name 4).1.counters mm.name = st.counters mm.name ∧
    StdMutationalStage.should_restart s st = RetryState.should_restart st s.name 3 ∧
    MultiMutationalStage.should_restart mm st = RetryState.should_restart st mm.name 3 ∧
    (StdMutationalStage.transforming_with_max_iterations i 128).name
      ≠ (MultiMutationalStage.transforming j).name := by
  refine ⟨?_, ?_, ?_, ?_, ?_, rfl, rfl, ?_⟩
  · simp [callShouldRestartN, RetryState.should_restart, h0]
  · simp [callShouldRestartN, RetryState.should_restart,
      StdMutationalStage.clear_progress, RetryState.clear_progress, h0]
  · simp [callShouldRestartN, RetryState.should_restart, h1]
  · simp [callShouldRestartN, RetryState.should_restart,
      MultiMutationalStage.clear_progress, RetryState.clear_progress, h1]
  · simp [callShouldRestartN, RetryState.should_restart, hne.symm]
  · intro heq
    have hdata := congrArg String.data heq
    simp [StdMutationalStage.transforming_with_max_iterations,
      MultiMutationalStage.transforming, MUTATIONAL_STAGE_NAME,
      MULTI_MUTATIONAL_STAGE_NAME, String.data_append] at hdata

/-- Closed witness for `retry_counter_three_strikes` on a fresh retry state and
the first constructed stage of each kind. -/
theorem retry_counter_three_strikes_witness :
    ((RetryState.mk fun _ => 0).counters
        (StdMutationalStage.transforming_with_max_iterations 0 128).name = 0 ∧
      (RetryState.mk fun _ => 0).counters (MultiMutationalStage.transforming 0).name = 0 ∧
      (StdMutationalStage.transforming_with_max_iterations 0 128).name
        ≠ (MultiMutationalStage.transforming 0).name) ∧
    (callShouldRestartN (RetryState.mk fun _ => 0)
        (StdMutationalStage.transforming_with_max_iterations 0 128).name 4).2
      = [true, true, true, false] ∧
    (callShouldRestartN (RetryState.mk fun _ => 0)
        (MultiMutationalStage.transforming 0).name 4).2
      = [true, true, true, false] :=
  have h := retry_counter_three_strikes (RetryState.mk fun _ => 0)
    (StdMutationalStage.transforming_with_max_iterations 0 128)
    (MultiMutationalStage.transforming 0) 0 0 rfl rfl (by decide)
  ⟨⟨rfl, rfl, by decide⟩, h.1, h.2.2.1⟩

end LibAFL
